import Mathlib

/-!
Shallow embedding of the deployment-monitoring subsystem
(`DeploymentMonitoringSystem`, file `part_001` of the repository) and proofs
about it.  JavaScript numbers that can be fractional (thresholds, metric
readings) are modelled as `ℚ`; millisecond clock readings are modelled as
`Nat`; fallible asynchronous calls are modelled as `Except String`-valued
behaviours supplied as parameters; the mutable `Map`s of the class are
modelled as explicit state threaded through each operation.
-/

namespace VaasMonitoring

/-- One warning/critical bound pair, as stored in `this.alertThresholds`. -/
structure Bounds where
  warning : ℚ
  critical : ℚ
deriving Repr, DecidableEq

/-- Source `initializeMonitoring`: the static alert-threshold table
(`this.alertThresholds.set(...)` for the five resource names). -/
def alertThresholds (name : String) : Option Bounds :=
  if name = "response_time" then some ⟨2000, 5000⟩
  else if name = "error_rate" then some ⟨1/20, 1/10⟩
  else if name = "cpu_usage" then some ⟨70, 85⟩
  else if name = "memory_usage" then some ⟨80, 90⟩
  else if name = "disk_usage" then some ⟨85, 95⟩
  else none

/-- Source `this.alertThresholds.get(name)` — the table lookup (total, the source
only ever looks up keys that were set). -/
def getThreshold (name : String) : Bounds :=
  (alertThresholds name).getD ⟨0, 0⟩

/-- Health record for one core service, as produced by the
`check*Health` probes (`status` plus optional error detail). -/
structure ServiceHealth where
  status : String
  error : Option String
deriving Repr, DecidableEq

/-- Health record for one agent, as produced by `checkAgentHealth`. -/
structure AgentHealth where
  status : String
  response_time : Option ℚ
  last_check : Nat
  endpoint_available : Bool
  error : Option String
deriving Repr, DecidableEq

/-- Infrastructure snapshot.  `checkInfrastructureHealth` is called but its
body is not part of this file's source; per the specification the snapshot
carries CPU/memory/disk readings.  Fields are `Option` because the snapshot
starts out as the empty object `{}` in `performHealthChecks` (a JS access of
an absent field yields `undefined`, which compares as false). -/
structure Infrastructure where
  cpu_usage : Option ℚ
  memory_usage : Option ℚ
  disk_usage : Option ℚ
deriving Repr, DecidableEq

/-- The empty snapshot `{}`. -/
def emptyInfrastructure : Infrastructure := ⟨none, none, none⟩

/-- One alert object pushed by `checkForAlerts`.  The `subject` field stands
for the `service` / `agent` / `resource` key of the JS object. -/
structure Alert where
  type : String
  severity : String
  subject : String
  message : String
  timestamp : Nat
deriving Repr, DecidableEq

/-- The `healthResults` record built by `performHealthChecks`.  The JS object
uses maps for `services`/`agents`; they are modelled as association lists in
`Object.entries` iteration order. -/
structure HealthResults where
  timestamp : Nat
  overall_status : String
  services : List (String × ServiceHealth)
  agents : List (String × AgentHealth)
  infrastructure : Infrastructure
  alerts : List Alert
  error : Option String
deriving Repr, DecidableEq

/-- JS comparison `x > c` where `x` may be `null`/`undefined` (modelled as
`none`): a relational comparison against an absent value is false. -/
def optGt (x : Option ℚ) (c : ℚ) : Bool :=
  match x with
  | none => false
  | some v => decide (c < v)

/-- Number of services whose `status` is `'unhealthy'`
(`Object.values(...).filter(s => s.status === 'unhealthy').length`). -/
def unhealthyServiceCount (hr : HealthResults) : Nat :=
  (hr.services.filter (fun p => p.2.status = "unhealthy")).length

/-- Number of agents whose `status` is `'unhealthy'`. -/
def unhealthyAgentCount (hr : HealthResults) : Nat :=
  (hr.agents.filter (fun p => p.2.status = "unhealthy")).length

/-- Number of alerts whose `severity` is `'critical'`. -/
def criticalAlertCount (hr : HealthResults) : Nat :=
  (hr.alerts.filter (fun a => a.severity = "critical")).length

/-- Source `evaluateOverallHealth(healthResults)` — the four-level status
derivation. -/
def evaluateOverallHealth (hr : HealthResults) : String :=
  if 0 < criticalAlertCount hr ∨ 2 < unhealthyServiceCount hr then "critical"
  else if 0 < unhealthyServiceCount hr ∨ 3 < unhealthyAgentCount hr then "degraded"
  else if 0 < unhealthyAgentCount hr then "warning"
  else "healthy"

/-- Source `calculateHealthScore(healthCheck)`: `0` for a missing snapshot, else
`100` minus `10`/`5`/`15` per unhealthy service / unhealthy agent / critical
alert, clamped below by `Math.max(0, score)`. -/
def calculateHealthScore (healthCheck : Option HealthResults) : ℤ :=
  match healthCheck with
  | none => 0
  | some hr =>
    let score : ℤ := 100
    let score := score - (unhealthyServiceCount hr : ℤ) * 10
    let score := score - (unhealthyAgentCount hr : ℤ) * 5
    let score := score - (criticalAlertCount hr : ℤ) * 15
    max 0 score

/-- JS template interpolation of a possibly-`null` error detail. -/
def errText (e : Option String) : String :=
  match e with
  | none => "null"
  | some s => s

/-- The alerts `checkForAlerts` pushes while visiting one entry of
`healthResults.services`. -/
def serviceAlerts (now : Nat) (p : String × ServiceHealth) : List Alert :=
  if p.2.status = "unhealthy" then
    [{ type := "service_down", severity := "critical", subject := p.1,
       message := "Service " ++ p.1 ++ " is unhealthy: " ++ errText p.2.error,
       timestamp := now }]
  else []

/-- The alerts `checkForAlerts` pushes while visiting one entry of
`healthResults.agents`: an `agent_down` alert when unhealthy, then a
`performance_degradation` alert when `response_time` exceeds the critical
response-time threshold. -/
def agentAlerts (now : Nat) (p : String × AgentHealth) : List Alert :=
  (if p.2.status = "unhealthy" then
    [{ type := "agent_down", severity := "high", subject := p.1,
       message := "Agent " ++ p.1 ++ " is not responding: " ++ errText p.2.error,
       timestamp := now }]
   else []) ++
  (if optGt p.2.response_time (getThreshold "response_time").critical then
    [{ type := "performance_degradation", severity := "high", subject := p.1,
       message := "Agent " ++ p.1 ++ " response time exceeds critical threshold",
       timestamp := now }]
   else [])

/-- The infrastructure alerts pushed by `checkForAlerts`: the source only
tests `infra.cpu_usage` against the `cpu_usage` critical bound (no test of
memory or disk readings appears in the function). -/
def infrastructureAlerts (now : Nat) (infra : Infrastructure) : List Alert :=
  if optGt infra.cpu_usage (getThreshold "cpu_usage").critical then
    [{ type := "resource_critical", severity := "critical", subject := "cpu",
       message := "CPU usage exceeds critical threshold",
       timestamp := now }]
  else []

/-- Source `checkForAlerts(healthResults)`: the full alert list, in push order —
service loop, then agent loop (each agent contributing its down-alert then
its latency alert), then the infrastructure check. -/
def checkForAlerts (hr : HealthResults) (now : Nat) : List Alert :=
  (hr.services.flatMap (serviceAlerts now)) ++
  (hr.agents.flatMap (agentAlerts now)) ++
  infrastructureAlerts now hr.infrastructure

/-- Source `sendHealthAlerts(alerts)`.  The two notification channels
(`sendEmailAlert`, `sendWhatsAppAlert`) are external collaborators, modelled
as fallible behaviours.  The `try { for ... } catch` of the source wraps the
WHOLE loop: the first channel call that throws aborts the loop (the error is
caught and only logged, so nothing propagates to the caller).  The value
returned is the log of successful channel deliveries, in order, as
`(channel, alert)` pairs. -/
def sendHealthAlerts (email whatsapp : Alert → Except String Unit) :
    List Alert → List (String × Alert)
  | [] => []
  | a :: rest =>
    match email a with
    | .error _ => []
    | .ok _ =>
      ("email", a) ::
        (if a.severity = "critical" then
          match whatsapp a with
          | .error _ => []
          | .ok _ => ("whatsapp", a) :: sendHealthAlerts email whatsapp rest
         else sendHealthAlerts email whatsapp rest)

/-! ## Deployment orchestrator (`executeFullDeployment` and friends) -/

/-- One entry of `deployment.steps`, as pushed by `updateDeploymentStep`. -/
structure DeploymentStep where
  name : String
  status : String
  timestamp : Nat
deriving Repr, DecidableEq

/-- The `deploymentStatus` record for one job.  Clock readings
(`new Date()`) are modelled as `Nat` milliseconds. -/
structure Deployment where
  status : String
  environment : String
  started_at : Nat
  steps : List DeploymentStep
  completed_at : Option Nat
  failed_at : Option Nat
  success : Option Bool
  error : Option String
deriving Repr, DecidableEq

/-- The record created by `deployFullSystem` before the async pipeline
starts. -/
def initialDeployment (environment : String) (now : Nat) : Deployment :=
  { status := "initializing", environment := environment, started_at := now,
    steps := [], completed_at := none, failed_at := none, success := none,
    error := none }

/-- Source `updateDeploymentStep(deploymentId, stepName, status)`: pushes one step
record, timestamped at append time, onto the end of `deployment.steps`. -/
def updateDeploymentStep (d : Deployment) (stepName status : String)
    (now : Nat) : Deployment :=
  { d with steps := d.steps ++ [⟨stepName, status, now⟩] }

/-- JS truthiness of a configuration value: absent (`undefined`) and the
empty string are falsy. -/
def truthy (v : Option String) : Bool :=
  match v with
  | none => false
  | some s => s ≠ ""

/-- The `requiredVars` list of `setupEnvironment`. -/
def requiredVars : List String :=
  ["SUPABASE_URL", "SUPABASE_ANON_KEY", "CLAUDE_API_KEY",
   "ELEVENLABS_API_KEY", "OPENAI_API_KEY", "WHATSAPP_ACCESS_TOKEN",
   "FLUTTERWAVE_SECRET_KEY", "GMAIL_CLIENT_ID"]

/-- Lookup in the `envConfig` object
`{ NODE_ENV, ODIA_VERSION, DEPLOYMENT_TIME, ...config }`: the spread of
`config` wins over the three baked-in keys. -/
def envConfigLookup (environment deploymentTime : String)
    (config : String → Option String) (key : String) : Option String :=
  match config key with
  | some v => some v
  | none =>
    if key = "NODE_ENV" then some environment
    else if key = "ODIA_VERSION" then some "1.0.0"
    else if key = "DEPLOYMENT_TIME" then some deploymentTime
    else none

/-- The `for (const varName of requiredVars)` validation loop: the first
variable that is falsy in both `process.env` and `envConfig` raises
`Missing required environment variable: <name>`. -/
def checkRequiredVars (present : String → Bool) :
    List String → Except String Unit
  | [] => .ok ()
  | v :: rest =>
    if present v then checkRequiredVars present rest
    else .error ("Missing required environment variable: " ++ v)

/-- Source `setupEnvironment(environment, config)` — only its validation effect is
relevant here (the subsequent `.env.deployment` file write is external
I/O and cannot fail the required-variable check). -/
def setupEnvironment (env : String → Option String) (environment : String)
    (config : String → Option String) (deploymentTime : String) :
    Except String Unit :=
  checkRequiredVars
    (fun v => truthy (env v) ||
      truthy (envConfigLookup environment deploymentTime config v))
    requiredVars

/-- Behaviours of the six pipeline stages after environment setup; each is
an external action that either resolves or rejects with an error message. -/
structure StageActions where
  runDatabaseMigrations : Except String Unit
  deployCoreServices : Except String Unit
  deployAllAgents : Except String Unit
  runIntegrationTests : Except String Unit
  verifySystemHealth : Except String Unit
  activateProduction : Except String Unit
deriving Repr

/-- The stage executor inside `executeFullDeployment`: for each stage it
appends a `running` step, runs the stage body, and on success appends a
`completed` step; the first rejection is handled by the surrounding
`catch`, which marks the job `failed` with the error message and stops (the
`catch` block appends NO step).  When every stage succeeds the job is marked
`completed`/`success`.  The clock advances by one between consecutive
`new Date()` readings. -/
def runStages (d : Deployment) (clock : Nat) :
    List (String × Except String Unit) → Deployment
  | [] =>
    { d with status := "completed", completed_at := some clock,
             success := some true }
  | (name, act) :: rest =>
    let d1 := updateDeploymentStep d name "running" clock
    match act with
    | .ok _ =>
      runStages (updateDeploymentStep d1 name "completed" (clock + 1))
        (clock + 2) rest
    | .error msg =>
      { d1 with status := "failed", error := some msg,
                failed_at := some (clock + 1) }

/-- The fixed pipeline of `executeFullDeployment`, in source order. -/
def deploymentStages (env config : String → Option String)
    (environment deploymentTime : String) (acts : StageActions) :
    List (String × Except String Unit) :=
  [("Environment Setup", setupEnvironment env environment config deploymentTime),
   ("Database Migration", acts.runDatabaseMigrations),
   ("Core Services", acts.deployCoreServices),
   ("AI Agents", acts.deployAllAgents),
   ("Integration Testing", acts.runIntegrationTests),
   ("Health Verification", acts.verifySystemHealth),
   ("Production Activation", acts.activateProduction)]

/-- Source `executeFullDeployment(deploymentId, environment, config)`: runs the
seven-stage pipeline over the job record.  The function always returns (its
`catch` absorbs every stage error), so it is total here. -/
def executeFullDeployment (env config : String → Option String)
    (environment deploymentTime : String) (acts : StageActions)
    (d : Deployment) (clock : Nat) : Deployment :=
  runStages d clock (deploymentStages env config environment deploymentTime acts)

/-! ## Agent health sweep (`checkAgentsHealth`) -/

/-- The `timeout: 5000` option of the probe `fetch`. -/
def probeTimeoutMs : Nat := 5000

/-- External behaviour of one probe target: either the fetch resolves with
an `ok` flag, or it rejects (timeout / network error); `elapsed` is the wall
time the awaited call took (for a timeout rejection this is the timeout
bound). -/
structure ProbeBehavior where
  outcome : Except String Bool
  elapsed : Nat
deriving Repr

/-- Source `checkAgentHealth(agentId)` with the given probe behaviour, finishing at
wall time `now`: a resolved fetch yields `healthy`/`unhealthy` from
`response.ok` with the measured `response_time`; a rejected fetch is caught
and yields `unhealthy` with `response_time: null`. -/
def checkAgentHealth (b : ProbeBehavior) (now : Nat) : AgentHealth :=
  match b.outcome with
  | .ok isOk =>
    { status := if isOk then "healthy" else "unhealthy",
      response_time := some (b.elapsed : ℚ),
      last_check := now,
      endpoint_available := isOk,
      error := if isOk then none else some "Endpoint not responding" }
  | .error e =>
    { status := "unhealthy", response_time := none, last_check := now,
      endpoint_available := false, error := some e }

/-- The `for (const agentId of agentIds) { agents[agentId] = await ... }`
loop of `checkAgentsHealth`: each probe is awaited before the next one
starts, so wall time advances by each probe's `elapsed` in turn.  Returns
the per-agent results plus the wall time at which the loop ends. -/
def checkAgentsHealthOver (probe : String → ProbeBehavior) (t : Nat) :
    List String → List (String × AgentHealth) × Nat
  | [] => ([], t)
  | id :: rest =>
    let b := probe id
    let h := checkAgentHealth b (t + b.elapsed)
    let r := checkAgentsHealthOver probe (t + b.elapsed) rest
    ((id, h) :: r.1, r.2)

/-- The fixed eleven-agent roster of `checkAgentsHealth`. -/
def agentIds : List String :=
  ["lexi-pro", "atlas-corporate", "miss-legal", "paymaster",
   "crossai-emergency", "miss-academic", "tech-support",
   "luxury-service", "med-assist", "edu-kids", "gov-connect"]

/-- Source `checkAgentsHealth()` starting at wall time `t`. -/
def checkAgentsHealth (probe : String → ProbeBehavior) (t : Nat) :
    List (String × AgentHealth) × Nat :=
  checkAgentsHealthOver probe t agentIds

/-! ## Metrics store (`collectPerformanceMetrics`) -/

section MetricsStore

variable {M : Type}

/-- JS `Map.set(k, v)` on an association list in insertion order: an existing
key is overwritten in place, a new key is appended at the end. -/
def mapSet (k : Nat) (v : M) : List (Nat × M) → List (Nat × M)
  | [] => [(k, v)]
  | (k', v') :: rest =>
    if k = k' then (k, v) :: rest else (k', v') :: mapSet k v rest

/-- JS `Map.delete(k)`: removes the entry with key `k` (keys are unique). -/
def mapDelete (k : Nat) (s : List (Nat × M)) : List (Nat × M) :=
  s.filter (fun p => p.1 ≠ k)

/-- JS `Math.min(...keys)` over a non-empty key list (`0` for the empty list,
which the source never reaches). -/
def listMin : List Nat → Nat
  | [] => 0
  | [a] => a
  | a :: b :: rest => min a (listMin (b :: rest))

/-- The store-updating effect of `collectPerformanceMetrics`: insert the
sample under the `Date.now()` key, then, if the store now holds more than
1000 entries, delete the entry with the smallest key. -/
def collectPerformanceMetrics (now : Nat) (sample : M)
    (store : List (Nat × M)) : List (Nat × M) :=
  let s := mapSet now sample store
  if 1000 < s.length then mapDelete (listMin (s.map Prod.fst)) s else s

/-- A whole sequence of `collectPerformanceMetrics` calls in chronological
order, starting from the empty `Map` created by the constructor. -/
def runMetrics (calls : List (Nat × M)) : List (Nat × M) :=
  calls.foldl (fun s c => collectPerformanceMetrics c.1 c.2 s) []

/-- The key set of a store. -/
def keyset (s : List (Nat × M)) : Finset ℕ :=
  (s.map Prod.fst).toFinset

/-- All timestamp keys that a call sequence ever inserted. -/
def seenKeys (calls : List (Nat × M)) : Finset ℕ :=
  (calls.map Prod.fst).toFinset

end MetricsStore

/-- Analysis definition: how many elements of `S` lie strictly above `j`. -/
def aboveCount (S : Finset ℕ) (j : ℕ) : ℕ :=
  (S.filter (fun i => j < i)).card

/-- Analysis definition (the specification's notion of retention): the
most-recent-`cap` subset of a set of timestamp keys — those keys with fewer
than `cap` strictly larger keys. -/
def topRecent (cap : ℕ) (S : Finset ℕ) : Finset ℕ :=
  S.filter (fun j => aboveCount S j < cap)

/-- Analysis definition: the key-set effect of one insert-then-evict step. -/
def evictInsert (cap k : ℕ) (S : Finset ℕ) : Finset ℕ :=
  let T := insert k S
  if cap < T.card then T.erase (T.min' (Finset.insert_nonempty k S)) else T

/-! ## `performHealthChecks` and the stored system-health state -/

/-- The two `systemHealth` map entries that `performHealthChecks` writes. -/
structure SystemHealth where
  last_health_check : Option HealthResults
  overall_status : String
deriving Repr, DecidableEq

/-- Source `performHealthChecks()` with the three fallible sub-checks supplied as
behaviours (`checkServicesHealth`, `checkAgentsHealth`,
`checkInfrastructureHealth`).  On full success the two `systemHealth`
entries are updated with the finished result.  The `catch` branch only
mutates the LOCAL `healthResults` record (status `'unhealthy'` plus the
error message) — the stored state is not touched, and the local record is
discarded.  (`sendHealthAlerts` wraps its own body in `try`/`catch`, so it
never throws; `evaluateOverallHealth`/`checkForAlerts` are pure.)  Returns
the state after the run together with the local `healthResults` record. -/
def performHealthChecks
    (svc : Except String (List (String × ServiceHealth)))
    (ag : Except String (List (String × AgentHealth)))
    (infra : Except String Infrastructure)
    (now : Nat) (st : SystemHealth) : SystemHealth × HealthResults :=
  let base : HealthResults :=
    { timestamp := now, overall_status := "healthy", services := [],
      agents := [], infrastructure := emptyInfrastructure, alerts := [],
      error := none }
  match svc with
  | .error e => (st, { base with overall_status := "unhealthy", error := some e })
  | .ok s =>
    match ag with
    | .error e =>
      (st, { base with services := s, overall_status := "unhealthy",
                       error := some e })
    | .ok a =>
      match infra with
      | .error e =>
        (st, { base with services := s, agents := a,
                         overall_status := "unhealthy", error := some e })
      | .ok i =>
        let hr1 : HealthResults := { base with services := s, agents := a,
                                               infrastructure := i }
        let status := evaluateOverallHealth hr1
        let hr2 := { hr1 with overall_status := status }
        let hr3 := { hr2 with alerts := checkForAlerts hr2 now }
        ({ last_health_check := some hr3, overall_status := status }, hr3)

/-! ## Concrete inputs used by the theorems -/

/-- A probe record for a service that is down. -/
def downService : ServiceHealth := ⟨"unhealthy", some "connection refused"⟩

/-- A probe record for a healthy service. -/
def upService : ServiceHealth := ⟨"healthy", none⟩

/-- A probe record for an agent that is down. -/
def downAgent : AgentHealth :=
  ⟨"unhealthy", none, 0, false, some "Endpoint not responding"⟩

/-- A probe record for a healthy agent. -/
def upAgent : AgentHealth := ⟨"healthy", some 120, 0, true, none⟩

/-- A base health snapshot with everything healthy. -/
def baseResults : HealthResults :=
  { timestamp := 0, overall_status := "healthy",
    services := [("database", upService), ("voice_engine", upService)],
    agents := [("lexi-pro", upAgent)],
    infrastructure := ⟨some 10, some 20, some 30⟩, alerts := [],
    error := none }

/-- Snapshot with exactly 3 unhealthy services and no critical alert. -/
def threeServicesDown : HealthResults :=
  { baseResults with
    services := [("database", downService), ("voice_engine", downService),
                 ("email_system", downService)] }

/-- Snapshot with 1 unhealthy service, 4 unhealthy agents, no critical
alert. -/
def oneServiceFourAgentsDown : HealthResults :=
  { baseResults with
    services := [("database", downService), ("voice_engine", upService)],
    agents := [("lexi-pro", downAgent), ("atlas-corporate", downAgent),
               ("miss-legal", downAgent), ("paymaster", downAgent)] }

/-- The `systemHealth` entries right after `initializeMonitoring`. -/
def initialSystemHealth : SystemHealth := ⟨none, "healthy"⟩

/-- A store already holding 1001 entries keyed `0..1000` (concrete input
for the eviction scenario). -/
def bigStore : List (ℕ × Unit) := (List.range 1001).map (fun i => (i, ()))

/-- Three non-critical alerts, for the dispatch scenario. -/
def alertA : Alert := ⟨"agent_down", "high", "lexi-pro", "m1", 0⟩

/-- Second alert of the dispatch scenario. -/
def alertB : Alert := ⟨"agent_down", "high", "atlas-corporate", "m2", 0⟩

/-- Third alert of the dispatch scenario. -/
def alertC : Alert := ⟨"agent_down", "high", "miss-legal", "m3", 0⟩

/-- An email channel that throws exactly on the second alert. -/
def failOnB : Alert → Except String Unit :=
  fun a => if a = alertB then .error "smtp failure" else .ok ()

/-- A channel that always succeeds. -/
def okChannel : Alert → Except String Unit := fun _ => .ok ()

/-- Stage behaviours in which every stage succeeds. -/
def okActs : StageActions := ⟨.ok (), .ok (), .ok (), .ok (), .ok (), .ok ()⟩

/-- Stage behaviours in which the core-services stage throws. -/
def coreFailActs : StageActions :=
  { okActs with deployCoreServices := .error "Failed to deploy service" }

/-- A process environment in which every variable is set. -/
def fullEnv : String → Option String := fun _ => some "x"

/-- An empty process environment / request config. -/
def noConfig : String → Option String := fun _ => none

/-- Five probe targets of the health-sweep scenario. -/
def fiveAgentRoster : List String :=
  ["lexi-pro", "atlas-corporate", "miss-legal", "paymaster",
   "crossai-emergency"]

/-- Probe behaviour in which exactly one of the five targets times out at
the 5000 ms probe bound and the other four respond healthily after
4999 ms. -/
def oneTimeoutProbe : String → ProbeBehavior :=
  fun id =>
    if id = "paymaster" then ⟨.error "timeout", probeTimeoutMs⟩
    else ⟨.ok true, 4999⟩

/-- Snapshot in which every service and agent is healthy but the memory and
disk readings exceed their critical thresholds (90 resp. 95). -/
def memDiskBreached : HealthResults :=
  { baseResults with infrastructure := ⟨some 10, some 100, some 99⟩ }

/-- Snapshot with 2 unhealthy services, 1 unhealthy agent and 1 critical
alert (the health-score example). -/
def scoreExample : HealthResults :=
  { baseResults with
    services := [("database", downService), ("voice_engine", downService),
                 ("email_system", upService)],
    agents := [("lexi-pro", downAgent), ("atlas-corporate", upAgent)],
    alerts := [{ type := "service_down", severity := "critical",
                 subject := "database", message := "down", timestamp := 0 }] }

end VaasMonitoring

/-! # Theorems -/

namespace VaasMonitoring

/-- C1: `evaluateOverallHealth` follows the four-level precedence rule —
`critical` iff (critical alerts > 0 or unhealthy services > 2), else
`degraded` iff (any unhealthy service or unhealthy agents > 3), else
`warning` iff any unhealthy agent, else `healthy`; in particular 0 critical
alerts with exactly 3 unhealthy services gives `critical`, and 0 critical
alerts, 1 unhealthy service, 4 unhealthy agents gives `degraded`. -/
theorem overall_health_precedence :
    (∀ hr : HealthResults,
      (evaluateOverallHealth hr = "critical" ↔
        0 < criticalAlertCount hr ∨ 2 < unhealthyServiceCount hr) ∧
      (evaluateOverallHealth hr = "degraded" ↔
        ¬(0 < criticalAlertCount hr ∨ 2 < unhealthyServiceCount hr) ∧
          (0 < unhealthyServiceCount hr ∨ 3 < unhealthyAgentCount hr)) ∧
      (evaluateOverallHealth hr = "warning" ↔
        ¬(0 < criticalAlertCount hr ∨ 2 < unhealthyServiceCount hr) ∧
          ¬(0 < unhealthyServiceCount hr ∨ 3 < unhealthyAgentCount hr) ∧
          0 < unhealthyAgentCount hr) ∧
      (evaluateOverallHealth hr = "healthy" ↔
        ¬(0 < criticalAlertCount hr ∨ 2 < unhealthyServiceCount hr) ∧
          ¬(0 < unhealthyServiceCount hr ∨ 3 < unhealthyAgentCount hr) ∧
          ¬0 < unhealthyAgentCount hr)) ∧
    criticalAlertCount threeServicesDown = 0 ∧
    unhealthyServiceCount threeServicesDown = 3 ∧
    evaluateOverallHealth threeServicesDown = "critical" ∧
    criticalAlertCount oneServiceFourAgentsDown = 0 ∧
    unhealthyServiceCount oneServiceFourAgentsDown = 1 ∧
    unhealthyAgentCount oneServiceFourAgentsDown = 4 ∧
    evaluateOverallHealth oneServiceFourAgentsDown = "degraded" := by
  refine ⟨fun hr => ?_, by decide, by decide, by decide, by decide, by decide,
    by decide, by decide⟩
  unfold evaluateOverallHealth
  split_ifs with h1 h2 h3 <;> simp_all

/-- C1 witness: the precedence rule instantiated at the concrete
three-services-down snapshot. -/
theorem overall_health_precedence_witness :
    evaluateOverallHealth threeServicesDown = "critical" :=
  ((overall_health_precedence.1 threeServicesDown).1).mpr (by decide)

/-- C6: the health score is 100 minus 10 per unhealthy service, 5 per
unhealthy agent and 15 per critical alert, floored at 0; 2 unhealthy
services, 1 unhealthy agent and 1 critical alert give 60. -/
theorem health_score_formula :
    (∀ hr : HealthResults,
      calculateHealthScore (some hr) =
        max 0 (100 - (unhealthyServiceCount hr : ℤ) * 10
                 - (unhealthyAgentCount hr : ℤ) * 5
                 - (criticalAlertCount hr : ℤ) * 15)) ∧
    unhealthyServiceCount scoreExample = 2 ∧
    unhealthyAgentCount scoreExample = 1 ∧
    criticalAlertCount scoreExample = 1 ∧
    calculateHealthScore (some scoreExample) = 60 := by
  refine ⟨fun hr => ?_, by decide, by decide, by decide, by decide⟩
  simp [calculateHealthScore]

/-! ### Helper lemmas for `checkForAlerts` -/

theorem service_block_count (now : Nat) (l : List (String × ServiceHealth)) :
    ((l.flatMap (serviceAlerts now)).filter
        (fun a => a.type = "service_down")).length =
      (l.filter (fun p => p.2.status = "unhealthy")).length := by
  induction l with
  | nil => simp
  | cons p rest ih =>
    by_cases h : p.2.status = "unhealthy" <;>
      simp [serviceAlerts, h, ih]

theorem service_block_no_other (now : Nat) (l : List (String × ServiceHealth))
    (t : String) (ht : t ≠ "service_down") :
    (l.flatMap (serviceAlerts now)).filter (fun a => a.type = t) = [] := by
  induction l with
  | nil => simp
  | cons p rest ih =>
    by_cases h : p.2.status = "unhealthy" <;>
      simp [serviceAlerts, h, ih, Ne.symm ht]

theorem agent_block_count_down (now : Nat) (l : List (String × AgentHealth)) :
    ((l.flatMap (agentAlerts now)).filter
        (fun a => a.type = "agent_down")).length =
      (l.filter (fun p => p.2.status = "unhealthy")).length := by
  induction l with
  | nil => simp
  | cons p rest ih =>
    by_cases h : p.2.status = "unhealthy" <;>
      by_cases h2 : optGt p.2.response_time (getThreshold "response_time").critical <;>
        simp [agentAlerts, h, h2, ih]

theorem agent_block_count_perf (now : Nat) (l : List (String × AgentHealth)) :
    ((l.flatMap (agentAlerts now)).filter
        (fun a => a.type = "performance_degradation")).length =
      (l.filter (fun p =>
        optGt p.2.response_time (getThreshold "response_time").critical)).length := by
  induction l with
  | nil => simp
  | cons p rest ih =>
    by_cases h : p.2.status = "unhealthy" <;>
      by_cases h2 : optGt p.2.response_time (getThreshold "response_time").critical <;>
        simp [agentAlerts, h, h2, ih]

theorem agent_block_no_other (now : Nat) (l : List (String × AgentHealth))
    (t : String) (ht1 : t ≠ "agent_down") (ht2 : t ≠ "performance_degradation") :
    (l.flatMap (agentAlerts now)).filter (fun a => a.type = t) = [] := by
  induction l with
  | nil => simp
  | cons p rest ih =>
    by_cases h : p.2.status = "unhealthy" <;>
      by_cases h2 : optGt p.2.response_time (getThreshold "response_time").critical <;>
        simp [agentAlerts, h, h2, ih, Ne.symm ht1, Ne.symm ht2]

theorem infra_block_count (now : Nat) (infra : Infrastructure) :
    ((infrastructureAlerts now infra).filter
        (fun a => a.type = "resource_critical")).length =
      (if optGt infra.cpu_usage (getThreshold "cpu_usage").critical
        then 1 else 0) := by
  by_cases h : optGt infra.cpu_usage (getThreshold "cpu_usage").critical <;>
    simp [infrastructureAlerts, h]

theorem infra_block_no_other (now : Nat) (infra : Infrastructure)
    (t : String) (ht : t ≠ "resource_critical") :
    (infrastructureAlerts now infra).filter (fun a => a.type = t) = [] := by
  by_cases h : optGt infra.cpu_usage (getThreshold "cpu_usage").critical <;>
    simp [infrastructureAlerts, h, Ne.symm ht]

theorem mem_serviceAlerts {now : Nat} {p : String × ServiceHealth} {a : Alert}
    (h : a ∈ serviceAlerts now p) :
    a.type = "service_down" ∧ a.severity = "critical" := by
  unfold serviceAlerts at h
  by_cases hs : p.2.status = "unhealthy" <;> simp [hs] at h
  subst h; exact ⟨rfl, rfl⟩

theorem mem_agentAlerts {now : Nat} {p : String × AgentHealth} {a : Alert}
    (h : a ∈ agentAlerts now p) :
    (a.type = "agent_down" ∧ a.severity = "high") ∨
      (a.type = "performance_degradation" ∧ a.severity = "high") := by
  unfold agentAlerts at h
  rcases List.mem_append.mp h with h | h
  · by_cases hs : p.2.status = "unhealthy" <;> simp [hs] at h
    subst h; left; exact ⟨rfl, rfl⟩
  · by_cases hrt : optGt p.2.response_time (getThreshold "response_time").critical <;>
      simp [hrt] at h
    subst h; right; exact ⟨rfl, rfl⟩

theorem mem_infrastructureAlerts {now : Nat} {infra : Infrastructure} {a : Alert}
    (h : a ∈ infrastructureAlerts now infra) :
    a.type = "resource_critical" ∧ a.severity = "critical" ∧
      a.subject = "cpu" := by
  unfold infrastructureAlerts at h
  by_cases hc : optGt infra.cpu_usage (getThreshold "cpu_usage").critical <;>
    simp [hc] at h
  subst h; exact ⟨rfl, rfl, rfl⟩

theorem alert_severity_of_type (hr : HealthResults) (now : Nat) :
    ∀ a ∈ checkForAlerts hr now,
      (a.type = "service_down" → a.severity = "critical") ∧
      (a.type = "agent_down" → a.severity = "high") ∧
      (a.type = "performance_degradation" → a.severity = "high") ∧
      (a.type = "resource_critical" → a.severity = "critical") := by
  intro a ha
  simp only [checkForAlerts, List.mem_append] at ha
  rcases ha with (ha | ha) | ha
  · obtain ⟨p, _, hp⟩ := List.mem_flatMap.mp ha
    obtain ⟨h1, h2⟩ := mem_serviceAlerts hp
    refine ⟨fun _ => h2, fun h => ?_, fun h => ?_, fun h => ?_⟩ <;>
      rw [h1] at h <;> simp at h
  · obtain ⟨p, _, hp⟩ := List.mem_flatMap.mp ha
    rcases mem_agentAlerts hp with ⟨h1, h2⟩ | ⟨h1, h2⟩ <;>
      refine ⟨fun h => ?_, fun h => ?_, fun h => ?_, fun h => ?_⟩ <;>
        rw [h1] at h <;> first | exact h2 | simp at h
  · obtain ⟨h1, h2, _⟩ := mem_infrastructureAlerts ha
    refine ⟨fun h => ?_, fun h => ?_, fun h => ?_, fun _ => h2⟩ <;>
      rw [h1] at h <;> simp at h

/-- C5 counterexample: in a snapshot where the memory reading (100) exceeds
the memory critical threshold (90) and the disk reading (99) exceeds the
disk critical threshold (95), `checkForAlerts` emits NO alert at all — the
claimed `resource_critical` alerts for the memory and disk breaches do not
exist (the function only tests `cpu_usage`). -/
theorem resource_alerts_ignore_memory_disk :
    optGt memDiskBreached.infrastructure.memory_usage
        (getThreshold "memory_usage").critical = true ∧
    optGt memDiskBreached.infrastructure.disk_usage
        (getThreshold "disk_usage").critical = true ∧
    checkForAlerts memDiskBreached 0 = [] := by
  exact ⟨by decide, by decide, by decide⟩

/-- C5 (amended): `checkForAlerts` emits exactly one `service_down`/critical
alert per unhealthy service, one `agent_down`/high alert per unhealthy
agent, one `performance_degradation`/high alert per agent whose probe
response time exceeds the critical response-time threshold, and one
`resource_critical`/critical alert when the CPU reading exceeds its critical
threshold — CPU only: the memory and disk readings never influence the
emitted alerts. -/
theorem checkForAlerts_classification :
    (∀ (hr : HealthResults) (now : Nat),
      ((checkForAlerts hr now).filter
          (fun a => a.type = "service_down")).length =
        unhealthyServiceCount hr) ∧
    (∀ (hr : HealthResults) (now : Nat),
      ((checkForAlerts hr now).filter
          (fun a => a.type = "agent_down")).length =
        unhealthyAgentCount hr) ∧
    (∀ (hr : HealthResults) (now : Nat),
      ((checkForAlerts hr now).filter
          (fun a => a.type = "performance_degradation")).length =
        (hr.agents.filter (fun p =>
          optGt p.2.response_time (getThreshold "response_time").critical)).length) ∧
    (∀ (hr : HealthResults) (now : Nat),
      ((checkForAlerts hr now).filter
          (fun a => a.type = "resource_critical")).length =
        (if optGt hr.infrastructure.cpu_usage (getThreshold "cpu_usage").critical
          then 1 else 0)) ∧
    (∀ (hr : HealthResults) (now : Nat) (mem disk : Option ℚ),
      checkForAlerts
        { hr with infrastructure :=
            { hr.infrastructure with memory_usage := mem, disk_usage := disk } }
        now = checkForAlerts hr now) ∧
    (∀ (hr : HealthResults) (now : Nat), ∀ a ∈ checkForAlerts hr now,
      (a.type = "service_down" → a.severity = "critical") ∧
      (a.type = "agent_down" → a.severity = "high") ∧
      (a.type = "performance_degradation" → a.severity = "high") ∧
      (a.type = "resource_critical" → a.severity = "critical")) := by
  refine ⟨fun hr now => ?_, fun hr now => ?_, fun hr now => ?_,
    fun hr now => ?_, fun hr now mem disk => ?_, alert_severity_of_type⟩
  · have h1 := agent_block_no_other now hr.agents "service_down"
      (by decide) (by decide)
    have h2 := infra_block_no_other now hr.infrastructure "service_down"
      (by decide)
    simp only [checkForAlerts, List.filter_append, List.length_append,
      service_block_count, h1, h2]
    simp [unhealthyServiceCount]
  · have h1 := service_block_no_other now hr.services "agent_down" (by decide)
    have h2 := infra_block_no_other now hr.infrastructure "agent_down"
      (by decide)
    simp only [checkForAlerts, List.filter_append, List.length_append,
      agent_block_count_down, h1, h2]
    simp [unhealthyAgentCount]
  · have h1 := service_block_no_other now hr.services
      "performance_degradation" (by decide)
    have h2 := infra_block_no_other now hr.infrastructure
      "performance_degradation" (by decide)
    simp only [checkForAlerts, List.filter_append, List.length_append,
      agent_block_count_perf, h1, h2]
    simp
  · have h1 := service_block_no_other now hr.services "resource_critical"
      (by decide)
    have h2 := agent_block_no_other now hr.agents "resource_critical"
      (by decide) (by decide)
    simp only [checkForAlerts, List.filter_append, List.length_append,
      infra_block_count, h1, h2]
    simp
  · simp [checkForAlerts, infrastructureAlerts]

/-- C5 witness: the amended classification instantiated at the concrete
two-services-down snapshot. -/
theorem checkForAlerts_classification_witness :
    ((checkForAlerts scoreExample 0).filter
        (fun a => a.type = "service_down")).length =
      unhealthyServiceCount scoreExample :=
  checkForAlerts_classification.1 scoreExample 0

/-- C4 counterexample: dispatching the three alerts `alertA, alertB, alertC`
through a channel that throws exactly on `alertB` delivers ONLY the first
alert — the third is never dispatched, because the `try`/`catch` of
`sendHealthAlerts` wraps the whole loop and the caught error aborts it. -/
theorem dispatch_failure_stops_rest :
    failOnB alertB = Except.error "smtp failure" ∧
    sendHealthAlerts failOnB okChannel [alertA, alertB, alertC] =
      [("email", alertA)] ∧
    (sendHealthAlerts failOnB okChannel [alertA, alertB, alertC]).contains
      ("email", alertC) = false := by
  refine ⟨rfl, by decide, by decide⟩

/-- C4 (amended): a channel failure while dispatching one alert aborts the
dispatch of every LATER alert in the list (the surrounding `try`/`catch`
stops the loop and only logs), while all alerts BEFORE the failing one are
delivered and the error does not propagate to the caller. -/
theorem dispatch_prefix_delivered
    (email whatsapp : Alert → Except String Unit) (l1 : List Alert)
    (a : Alert) (l2 : List Alert) (msg : String)
    (h1 : ∀ x ∈ l1, email x = .ok () ∧
      (x.severity = "critical" → whatsapp x = .ok ()))
    (h2 : email a = .error msg) :
    sendHealthAlerts email whatsapp (l1 ++ a :: l2) =
      l1.flatMap (fun x => ("email", x) ::
        (if x.severity = "critical" then [("whatsapp", x)] else [])) := by
  induction l1 with
  | nil => simp [sendHealthAlerts, h2]
  | cons x l1 ih =>
    obtain ⟨hx, hw⟩ := h1 x (List.mem_cons_self x l1)
    have ih' := ih (fun y hy => h1 y (List.mem_cons_of_mem x hy))
    by_cases hc : x.severity = "critical"
    · simp [sendHealthAlerts, hx, hc, hw hc, ih']
    · simp [sendHealthAlerts, hx, hc, ih']

/-- C4 witness: the prefix-delivery theorem applied to the concrete
three-alert scenario with the channel failing on the second alert. -/
theorem dispatch_prefix_delivered_witness :
    sendHealthAlerts failOnB okChannel [alertA, alertB, alertC] =
      [("email", alertA)] := by
  have h := dispatch_prefix_delivered failOnB okChannel [alertA] alertB
    [alertC] "smtp failure"
    (by intro x hx
        simp only [List.mem_singleton] at hx
        subst hx
        exact ⟨rfl, fun hc => absurd hc (by decide)⟩)
    rfl
  simpa using h

/-- C3 counterexample: a deployment whose core-services stage throws ends
with job status `failed` and with NO step of status `failed` in the log —
the `catch` block of `executeFullDeployment` records nothing; the log ends
at the `running` entry of `Core Services` and no later stage is recorded. -/
theorem core_failure_no_failed_step :
    (executeFullDeployment fullEnv noConfig "production" "t0" coreFailActs
        (initialDeployment "production" 0) 1).status = "failed" ∧
    ((executeFullDeployment fullEnv noConfig "production" "t0" coreFailActs
        (initialDeployment "production" 0) 1).steps.filter
      (fun s => s.status = "failed")) = [] ∧
    ((executeFullDeployment fullEnv noConfig "production" "t0" coreFailActs
        (initialDeployment "production" 0) 1).steps.map
      (fun s => (s.name, s.status))) =
      [("Environment Setup", "running"), ("Environment Setup", "completed"),
       ("Database Migration", "running"), ("Database Migration", "completed"),
       ("Core Services", "running")] := by
  refine ⟨by decide, by decide, by decide⟩

/-- C3 (amended): when the core-services stage throws (and the two stages
before it succeed), the job ends `failed` carrying the stage's error
message, the step log ends with the `running` entry for `Core Services`
(no `failed` step is appended for the stage), and no steps are recorded for
any stage after the failing one. -/
theorem core_failure_job_failed
    (env config : String → Option String) (environment dtime : String)
    (acts : StageActions) (d : Deployment) (clock : Nat) (msg : String)
    (h0 : setupEnvironment env environment config dtime = .ok ())
    (h1 : acts.runDatabaseMigrations = .ok ())
    (h2 : acts.deployCoreServices = .error msg) :
    (executeFullDeployment env config environment dtime acts d clock).status
        = "failed" ∧
    (executeFullDeployment env config environment dtime acts d clock).error
        = some msg ∧
    (executeFullDeployment env config environment dtime acts d clock).steps
        = d.steps ++
      [⟨"Environment Setup", "running", clock⟩,
       ⟨"Environment Setup", "completed", clock + 1⟩,
       ⟨"Database Migration", "running", clock + 2⟩,
       ⟨"Database Migration", "completed", clock + 3⟩,
       ⟨"Core Services", "running", clock + 4⟩] := by
  simp [executeFullDeployment, deploymentStages, runStages, h0, h1, h2,
    updateDeploymentStep]

/-- C3 witness: the amended theorem applied to the concrete failing run. -/
theorem core_failure_job_failed_witness :
    (executeFullDeployment fullEnv noConfig "production" "t0" coreFailActs
        (initialDeployment "production" 0) 1).status = "failed" :=
  (core_failure_job_failed fullEnv noConfig "production" "t0" coreFailActs
    (initialDeployment "production" 0) 1 "Failed to deploy service"
    rfl rfl rfl).1

/-- Helper: the required-variable loop reports some missing variable (the
first one) whenever at least one is missing. -/
theorem checkRequiredVars_finds_missing (present : String → Bool)
    (l : List String) (h : ∃ k ∈ l, present k = false) :
    ∃ k ∈ l, present k = false ∧
      checkRequiredVars present l =
        .error ("Missing required environment variable: " ++ k) := by
  induction l with
  | nil => simp at h
  | cons v rest ih =>
    by_cases hv : present v
    · obtain ⟨k, hk, hkf⟩ := h
      rcases List.mem_cons.mp hk with rfl | hk'
      · rw [hv] at hkf; exact absurd hkf (by simp)
      · obtain ⟨k', hk'', hkf', herr⟩ := ih ⟨k, hk', hkf⟩
        exact ⟨k', List.mem_cons_of_mem v hk'', hkf',
          by simpa [checkRequiredVars, hv] using herr⟩
    · exact ⟨v, List.mem_cons_self v rest, by simpa using hv,
        by simp [checkRequiredVars, hv]⟩

/-- C7: if some required configuration key is absent (falsy) in both the
process environment and the merged `envConfig`, the environment-setup stage
raises `Missing required environment variable: <key>` for such a key; the
job is marked `failed`, only the `running` entry of `Environment Setup` is
logged (no later stage runs), and `executeFullDeployment` still returns
normally — the failure is fatal to this job only. -/
theorem missing_config_fails_job_only
    (env config : String → Option String) (environment dtime : String)
    (acts : StageActions) (d : Deployment) (clock : Nat)
    (h : ∃ k ∈ requiredVars,
      (truthy (env k) ||
        truthy (envConfigLookup environment dtime config k)) = false) :
    (executeFullDeployment env config environment dtime acts d clock).status
        = "failed" ∧
    (∃ k ∈ requiredVars,
      (truthy (env k) ||
        truthy (envConfigLookup environment dtime config k)) = false ∧
      (executeFullDeployment env config environment dtime acts d clock).error
        = some ("Missing required environment variable: " ++ k)) ∧
    (executeFullDeployment env config environment dtime acts d clock).steps
        = d.steps ++ [⟨"Environment Setup", "running", clock⟩] := by
  obtain ⟨k, hk, hkf, herr⟩ := checkRequiredVars_finds_missing
    (fun v => truthy (env v) ||
      truthy (envConfigLookup environment dtime config v)) requiredVars h
  have hse : setupEnvironment env environment config dtime =
      .error ("Missing required environment variable: " ++ k) := herr
  refine ⟨?_, ⟨k, hk, hkf, ?_⟩, ?_⟩ <;>
    simp [executeFullDeployment, deploymentStages, runStages, hse,
      updateDeploymentStep]

/-- C7 witness: with an empty environment and config every required key is
missing, and the job fails in the environment-setup stage. -/
theorem missing_config_fails_job_only_witness :
    (executeFullDeployment noConfig noConfig "production" "t0" okActs
        (initialDeployment "production" 0) 1).status = "failed" :=
  (missing_config_fails_job_only noConfig noConfig "production" "t0" okActs
    (initialDeployment "production" 0) 1
    ⟨"SUPABASE_URL", by decide, by decide⟩).1

/-- Helper: appending one step whose timestamp dominates a time-sorted log
keeps the log time-sorted. -/
theorem chain_le_append_singleton (l : List DeploymentStep)
    (x : DeploymentStep)
    (h : List.Chain' (fun a b => a.timestamp ≤ b.timestamp) l)
    (hx : ∀ s ∈ l, s.timestamp ≤ x.timestamp) :
    List.Chain' (fun a b => a.timestamp ≤ b.timestamp) (l ++ [x]) := by
  refine h.append (List.chain'_singleton x) ?_
  intro b hb y hy
  simp only [List.head?_cons, Option.mem_def, Option.some.injEq] at hy
  subst hy
  obtain ⟨hne, rfl⟩ := List.mem_getLast?_eq_getLast hb
  exact hx _ (List.getLast_mem hne)

/-- C8: the step log is append-only — `updateDeploymentStep` only appends a
step timestamped at append time, and any pipeline run leaves the previous
log as an unchanged prefix of the new one while keeping timestamps
non-decreasing along the whole log (so a recorded `completed`/`failed` entry
is never modified afterwards). -/
theorem step_log_append_only :
    (∀ (d : Deployment) (n s : String) (t : Nat),
      (updateDeploymentStep d n s t).steps = d.steps ++ [⟨n, s, t⟩]) ∧
    (∀ (stages : List (String × Except String Unit)) (d : Deployment)
        (clock : Nat),
      (∀ st ∈ d.steps, st.timestamp ≤ clock) →
      List.Chain' (fun a b => a.timestamp ≤ b.timestamp) d.steps →
      (∃ t, (runStages d clock stages).steps = d.steps ++ t) ∧
      List.Chain' (fun a b => a.timestamp ≤ b.timestamp)
        (runStages d clock stages).steps) := by
  refine ⟨fun d n s t => rfl, fun stages => ?_⟩
  induction stages with
  | nil =>
    intro d clock hle hch
    exact ⟨⟨[], by simp [runStages]⟩, by simpa [runStages] using hch⟩
  | cons p rest ih =>
    intro d clock hle hch
    obtain ⟨name, act⟩ := p
    have c1 := chain_le_append_singleton d.steps ⟨name, "running", clock⟩
      hch (fun s hs => hle s hs)
    cases act with
    | ok u =>
      have c2 := chain_le_append_singleton
        (d.steps ++ [⟨name, "running", clock⟩])
        ⟨name, "completed", clock + 1⟩ c1 (by
          intro s hs
          rcases List.mem_append.mp hs with hs | hs
          · exact le_trans (hle s hs) (Nat.le_succ clock)
          · simp only [List.mem_singleton] at hs
            subst hs
            exact Nat.le_succ clock)
      have h1 : ∀ st ∈ (updateDeploymentStep
          (updateDeploymentStep d name "running" clock) name "completed"
          (clock + 1)).steps, st.timestamp ≤ clock + 2 := by
        intro st hst
        simp only [updateDeploymentStep, List.append_assoc,
          List.mem_append, List.mem_singleton] at hst
        rcases hst with hst | hst | hst
        · exact le_trans (hle st hst) (by omega)
        · subst hst; show clock ≤ clock + 2; omega
        · subst hst; show clock + 1 ≤ clock + 2; omega
      obtain ⟨⟨t, ht⟩, hc⟩ := ih (updateDeploymentStep
        (updateDeploymentStep d name "running" clock) name "completed"
        (clock + 1)) (clock + 2) h1
        (by simpa [updateDeploymentStep] using c2)
      constructor
      · refine ⟨⟨name, "running", clock⟩ :: ⟨name, "completed", clock + 1⟩ :: t, ?_⟩
        simp only [runStages]
        rw [ht]
        simp [updateDeploymentStep]
      · simpa [runStages] using hc
    | error msg =>
      constructor
      · exact ⟨[⟨name, "running", clock⟩],
          by simp [runStages, updateDeploymentStep]⟩
      · simpa [runStages, updateDeploymentStep] using c1

/-- C8 witness: the append-only/time-sorted property at a concrete
successful pipeline run from an empty log. -/
theorem step_log_append_only_witness :
    (∃ t, (runStages (initialDeployment "production" 0) 1
        (deploymentStages fullEnv noConfig "production" "t0" okActs)).steps =
      (initialDeployment "production" 0).steps ++ t) ∧
    List.Chain' (fun a b => a.timestamp ≤ b.timestamp)
      (runStages (initialDeployment "production" 0) 1
        (deploymentStages fullEnv noConfig "production" "t0" okActs)).steps :=
  step_log_append_only.2 _ _ _ (by simp [initialDeployment])
    (by simp [initialDeployment])

/-- C9 counterexample: with five agents probed, four healthy after 4999 ms
each and one timing out at the 5000 ms probe bound, the sweep loop does mark
four agents `healthy` and one `unhealthy`, but its total duration is
24996 ms — the sequential `await` loop sums the probe durations, so the
sweep does NOT complete within the single-probe timeout bound plus a small
constant (it is not even within twice the bound; it is within 4 ms of five
times the bound). -/
theorem sequential_sweep_violates_bound :
    ((checkAgentsHealthOver oneTimeoutProbe 0 fiveAgentRoster).1.filter
      (fun p => p.2.status = "healthy")).length = 4 ∧
    ((checkAgentsHealthOver oneTimeoutProbe 0 fiveAgentRoster).1.filter
      (fun p => p.2.status = "unhealthy")).length = 1 ∧
    (checkAgentsHealthOver oneTimeoutProbe 0 fiveAgentRoster).2 = 24996 ∧
    ¬((checkAgentsHealthOver oneTimeoutProbe 0 fiveAgentRoster).2 ≤
        probeTimeoutMs + probeTimeoutMs) := by
  refine ⟨by decide, by decide, by decide, by decide⟩

/-- C9 (amended): probes in one sweep are awaited one after another, so the
sweep's total duration is the SUM of the individual probe durations (up to
five times the single-probe bound for five probes), while the statuses are
still as expected: in the one-timeout-of-five scenario four agents are
`healthy` and one is `unhealthy`. -/
theorem sequential_sweep_duration :
    (∀ (probe : String → ProbeBehavior) (t : Nat) (roster : List String),
      (checkAgentsHealthOver probe t roster).2 =
        t + (roster.map (fun i => (probe i).elapsed)).sum) ∧
    ((checkAgentsHealthOver oneTimeoutProbe 0 fiveAgentRoster).1.map
      (fun p => (p.1, p.2.status))) =
      [("lexi-pro", "healthy"), ("atlas-corporate", "healthy"),
       ("miss-legal", "healthy"), ("paymaster", "unhealthy"),
       ("crossai-emergency", "healthy")] ∧
    (checkAgentsHealthOver oneTimeoutProbe 0 fiveAgentRoster).2 =
      4999 + 4999 + 4999 + probeTimeoutMs + 4999 := by
  refine ⟨fun probe t roster => ?_, by decide, by decide⟩
  induction roster generalizing t with
  | nil => simp [checkAgentsHealthOver]
  | cons id rest ih =>
    simp only [checkAgentsHealthOver, List.map_cons, List.sum_cons, ih]
    omega

/-- C10: when any of the three sub-checks of `performHealthChecks` throws,
the stored system-health state is left untouched — neither
`last_health_check` nor the stored `overall_status` is written — while the
discarded local result has `overall_status = "unhealthy"` and carries the
error message. -/
theorem failed_check_preserves_state
    (svc : Except String (List (String × ServiceHealth)))
    (ag : Except String (List (String × AgentHealth)))
    (infra : Except String Infrastructure) (now : Nat) (st : SystemHealth)
    (h : (∃ e, svc = .error e) ∨ (∃ e, ag = .error e) ∨
      (∃ e, infra = .error e)) :
    (performHealthChecks svc ag infra now st).1 = st ∧
    (performHealthChecks svc ag infra now st).2.overall_status =
      "unhealthy" ∧
    (performHealthChecks svc ag infra now st).2.error ≠ none := by
  cases svc <;> cases ag <;> cases infra <;> simp_all [performHealthChecks]

/-- C10 witness: a failing services sub-check leaves the initial stored
state unchanged. -/
theorem failed_check_preserves_state_witness :
    (performHealthChecks (.error "db down") (.ok [])
      (.ok emptyInfrastructure) 0 initialSystemHealth).1 =
        initialSystemHealth ∧
    (performHealthChecks (.error "db down") (.ok [])
      (.ok emptyInfrastructure) 0 initialSystemHealth).2.overall_status =
        "unhealthy" :=
  ⟨(failed_check_preserves_state (.error "db down") (.ok [])
      (.ok emptyInfrastructure) 0 initialSystemHealth
      (Or.inl ⟨"db down", rfl⟩)).1,
   (failed_check_preserves_state (.error "db down") (.ok [])
      (.ok emptyInfrastructure) 0 initialSystemHealth
      (Or.inl ⟨"db down", rfl⟩)).2.1⟩

/-! ### Metrics-store helper lemmas: list-level bridges -/

theorem mem_keys_mapSet {M : Type} (k : ℕ) (v : M) (s : List (ℕ × M))
    (x : ℕ) :
    x ∈ (mapSet k v s).map Prod.fst ↔ x = k ∨ x ∈ s.map Prod.fst := by
  induction s with
  | nil => simp [mapSet]
  | cons p rest ih =>
    obtain ⟨k', v'⟩ := p
    by_cases h : k = k' <;> simp [mapSet, h, ih] <;> tauto

theorem keyset_mapSet {M : Type} (k : ℕ) (v : M) (s : List (ℕ × M)) :
    keyset (mapSet k v s) = insert k (keyset s) := by
  ext x
  simp only [keyset, List.mem_toFinset, Finset.mem_insert]
  exact mem_keys_mapSet k v s x

theorem nodup_keys_mapSet {M : Type} (k : ℕ) (v : M) (s : List (ℕ × M))
    (h : (s.map Prod.fst).Nodup) : ((mapSet k v s).map Prod.fst).Nodup := by
  induction s with
  | nil => simp [mapSet]
  | cons p rest ih =>
    obtain ⟨k', v'⟩ := p
    simp only [List.map_cons, List.nodup_cons] at h
    by_cases hk : k = k'
    · subst hk
      simpa [mapSet] using h
    · simp only [mapSet, if_neg hk, List.map_cons, List.nodup_cons]
      refine ⟨?_, ih h.2⟩
      simp only [mem_keys_mapSet]
      rintro (rfl | hmem)
      · exact hk rfl
      · exact h.1 hmem

theorem length_keyset {M : Type} (s : List (ℕ × M))
    (h : (s.map Prod.fst).Nodup) : s.length = (keyset s).card := by
  unfold keyset
  rw [List.toFinset_card_of_nodup h, List.length_map]

theorem length_le_length_mapSet {M : Type} (k : ℕ) (v : M)
    (s : List (ℕ × M)) : s.length ≤ (mapSet k v s).length := by
  induction s with
  | nil => simp [mapSet]
  | cons p rest ih =>
    obtain ⟨k', v'⟩ := p
    by_cases h : k = k' <;> simp [mapSet, h] <;> omega

theorem keyset_mapDelete {M : Type} (k : ℕ) (s : List (ℕ × M)) :
    keyset (mapDelete k s) = (keyset s).erase k := by
  ext x
  simp only [keyset, mapDelete, List.mem_toFinset, List.mem_map,
    List.mem_filter, Finset.mem_erase, decide_not, Bool.not_eq_eq_eq_not,
    Bool.not_true, decide_eq_false_iff_not]
  constructor
  · rintro ⟨p, ⟨hp, hne⟩, rfl⟩
    exact ⟨hne, ⟨p, hp, rfl⟩⟩
  · rintro ⟨hne, ⟨p, hp, rfl⟩⟩
    exact ⟨p, ⟨hp, hne⟩, rfl⟩

theorem nodup_keys_mapDelete {M : Type} (k : ℕ) (s : List (ℕ × M))
    (h : (s.map Prod.fst).Nodup) :
    ((mapDelete k s).map Prod.fst).Nodup :=
  List.Nodup.sublist (List.Sublist.map Prod.fst (List.filter_sublist s)) h

theorem listMin_spec (l : List ℕ) (h : l ≠ []) :
    listMin l ∈ l ∧ ∀ x ∈ l, listMin l ≤ x := by
  induction l with
  | nil => exact absurd rfl h
  | cons a rest ih =>
    cases rest with
    | nil => simp [listMin]
    | cons b rest' =>
      obtain ⟨hmem, hle⟩ := ih (by simp)
      constructor
      · simp only [listMin]
        rcases le_total a (listMin (b :: rest')) with h1 | h1
        · simp [min_eq_left h1]
        · rw [min_eq_right h1]
          exact List.mem_cons_of_mem a hmem
      · intro x hx
        simp only [listMin]
        rcases List.mem_cons.mp hx with rfl | hx'
        · exact min_le_left _ _
        · exact le_trans (min_le_right _ _) (hle x hx')

theorem listMin_eq_min' (l : List ℕ) (h : l ≠ [])
    (hne : l.toFinset.Nonempty) : listMin l = l.toFinset.min' hne := by
  obtain ⟨hmem, hle⟩ := listMin_spec l h
  apply le_antisymm
  · exact hle _ (List.mem_toFinset.mp (l.toFinset.min'_mem hne))
  · exact Finset.min'_le _ _ (List.mem_toFinset.mpr hmem)

/-! ### Metrics-store helper lemmas: the most-recent-N characterisation -/

theorem mem_topRecent {cap : ℕ} {S : Finset ℕ} {j : ℕ} :
    j ∈ topRecent cap S ↔ j ∈ S ∧ aboveCount S j < cap := by
  simp [topRecent, Finset.mem_filter]

theorem aboveCount_lt_card {S : Finset ℕ} {j : ℕ} (hj : j ∈ S) :
    aboveCount S j < S.card := by
  have hsub : S.filter (fun i => j < i) ⊆ S.erase j := by
    intro x hx
    rw [Finset.mem_filter] at hx
    exact Finset.mem_erase.mpr ⟨(hx.2).ne', hx.1⟩
  calc aboveCount S j ≤ (S.erase j).card := Finset.card_le_card hsub
    _ < S.card := Finset.card_erase_lt_of_mem hj

theorem aboveCount_mono {S T : Finset ℕ} (h : S ⊆ T) (j : ℕ) :
    aboveCount S j ≤ aboveCount T j :=
  Finset.card_le_card (Finset.filter_subset_filter _ h)

theorem aboveCount_add_one_le {S : Finset ℕ} {j k : ℕ} (hk : k ∈ S)
    (hjk : j < k) : aboveCount S k + 1 ≤ aboveCount S j := by
  have hsub : insert k (S.filter (fun i => k < i)) ⊆
      S.filter (fun i => j < i) := by
    intro x hx
    rcases Finset.mem_insert.mp hx with rfl | hx'
    · exact Finset.mem_filter.mpr ⟨hk, hjk⟩
    · rw [Finset.mem_filter] at hx' ⊢
      exact ⟨hx'.1, lt_trans hjk hx'.2⟩
  have hnm : k ∉ S.filter (fun i => k < i) := by simp
  calc aboveCount S k + 1
      = (insert k (S.filter (fun i => k < i))).card :=
        (Finset.card_insert_of_not_mem hnm).symm
    _ ≤ aboveCount S j := Finset.card_le_card hsub

theorem aboveCount_injOn (S : Finset ℕ) : Set.InjOn (aboveCount S) S := by
  intro a ha b hb hab
  by_contra hne
  rcases lt_or_gt_of_ne hne with h | h
  · have := aboveCount_add_one_le (Finset.mem_coe.mp hb) h
    omega
  · have := aboveCount_add_one_le (Finset.mem_coe.mp ha) h
    omega

theorem image_aboveCount (S : Finset ℕ) :
    S.image (aboveCount S) = Finset.range S.card := by
  apply Finset.eq_of_subset_of_card_le
  · intro x hx
    obtain ⟨j, hj, rfl⟩ := Finset.mem_image.mp hx
    exact Finset.mem_range.mpr (aboveCount_lt_card hj)
  · rw [Finset.card_range, Finset.card_image_of_injOn (aboveCount_injOn S)]

theorem image_topRecent (cap : ℕ) (S : Finset ℕ) :
    (topRecent cap S).image (aboveCount S) =
      (S.image (aboveCount S)).filter (fun r => r < cap) := by
  ext y
  simp only [topRecent, Finset.mem_image, Finset.mem_filter]
  constructor
  · rintro ⟨x, ⟨hx1, hx2⟩, rfl⟩
    exact ⟨⟨x, hx1, rfl⟩, hx2⟩
  · rintro ⟨⟨x, hx1, rfl⟩, hy⟩
    exact ⟨x, ⟨hx1, hy⟩, rfl⟩

theorem card_topRecent (cap : ℕ) (S : Finset ℕ) :
    (topRecent cap S).card = min cap S.card := by
  have hinj : Set.InjOn (aboveCount S) (topRecent cap S) :=
    (aboveCount_injOn S).mono
      (Finset.coe_subset.mpr (Finset.filter_subset _ _))
  rw [← Finset.card_image_of_injOn hinj, image_topRecent, image_aboveCount]
  have hrr : (Finset.range S.card).filter (fun r => r < cap) =
      Finset.range (min cap S.card) := by
    ext x
    simp [Nat.lt_min, and_comm]
  rw [hrr, Finset.card_range]

theorem topRecent_insert_subset (cap k : ℕ) (S : Finset ℕ) :
    topRecent cap (insert k S) ⊆ insert k (topRecent cap S) := by
  intro j hj
  obtain ⟨hjS', hjlt⟩ := mem_topRecent.mp hj
  rcases Finset.mem_insert.mp hjS' with rfl | hjS
  · exact Finset.mem_insert_self _ _
  · exact Finset.mem_insert_of_mem (mem_topRecent.mpr
      ⟨hjS, lt_of_le_of_lt (aboveCount_mono (Finset.subset_insert _ _) j) hjlt⟩)

theorem evictInsert_of_lt {cap k : ℕ} {S : Finset ℕ}
    (h : cap < (insert k S).card) :
    evictInsert cap k S = (insert k S).erase
      ((insert k S).min' (Finset.insert_nonempty k S)) := by
  simp only [evictInsert]
  rw [if_pos h]

theorem evictInsert_of_le {cap k : ℕ} {S : Finset ℕ}
    (h : ¬cap < (insert k S).card) : evictInsert cap k S = insert k S := by
  simp only [evictInsert]
  rw [if_neg h]

theorem topRecent_insert_evict (cap k : ℕ) (S : Finset ℕ)
    (hevict : cap < (insert k (topRecent cap S)).card) :
    (insert k (topRecent cap S)).erase
      ((insert k (topRecent cap S)).min'
        (Finset.insert_nonempty k (topRecent cap S))) =
      topRecent cap (insert k S) := by
  have hAS : topRecent cap S ⊆ S := Finset.filter_subset _ _
  have hTS' : insert k (topRecent cap S) ⊆ insert k S :=
    Finset.insert_subset_insert k hAS
  have hcardA : (topRecent cap S).card = min cap S.card := card_topRecent cap S
  have hminA : min cap S.card ≤ cap := min_le_left _ _
  have hminS : min cap S.card ≤ S.card := min_le_right _ _
  have hTle := Finset.card_insert_le k (topRecent cap S)
  have hTcard : (insert k (topRecent cap S)).card = cap + 1 := by omega
  have hScard : cap ≤ S.card := by omega
  have hRcard : (topRecent cap (insert k S)).card = cap := by
    rw [card_topRecent]
    have h1 : S.card ≤ (insert k S).card :=
      Finset.card_le_card (Finset.subset_insert _ _)
    exact min_eq_left (by omega)
  have hmT : (insert k (topRecent cap S)).min'
      (Finset.insert_nonempty k (topRecent cap S)) ∈
        insert k (topRecent cap S) := Finset.min'_mem _ _
  have heraseSub : (insert k (topRecent cap S)).erase
      ((insert k (topRecent cap S)).min'
        (Finset.insert_nonempty k (topRecent cap S))) ⊆
      (insert k S).filter (fun i =>
        (insert k (topRecent cap S)).min'
          (Finset.insert_nonempty k (topRecent cap S)) < i) := by
    intro x hx
    obtain ⟨hxm, hxT⟩ := Finset.mem_erase.mp hx
    exact Finset.mem_filter.mpr ⟨hTS' hxT,
      lt_of_le_of_ne (Finset.min'_le _ x hxT) (Ne.symm hxm)⟩
  have hmAbove : cap ≤ aboveCount (insert k S)
      ((insert k (topRecent cap S)).min'
        (Finset.insert_nonempty k (topRecent cap S))) := by
    have h1 := Finset.card_le_card heraseSub
    rw [Finset.card_erase_of_mem hmT, hTcard] at h1
    exact le_trans (by omega) h1
  have hmNotR : (insert k (topRecent cap S)).min'
      (Finset.insert_nonempty k (topRecent cap S)) ∉
        topRecent cap (insert k S) := by
    intro hmR
    have h2 := (mem_topRecent.mp hmR).2
    omega
  have hRsub : topRecent cap (insert k S) ⊆
      (insert k (topRecent cap S)).erase
        ((insert k (topRecent cap S)).min'
          (Finset.insert_nonempty k (topRecent cap S))) := by
    intro j hj
    exact Finset.mem_erase.mpr
      ⟨fun hje => hmNotR (hje ▸ hj), topRecent_insert_subset cap k S hj⟩
  refine (Finset.eq_of_subset_of_card_le hRsub ?_).symm
  rw [Finset.card_erase_of_mem hmT, hTcard, hRcard]
  omega

theorem topRecent_insert_keep (cap k : ℕ) (S : Finset ℕ)
    (hkeep : ¬cap < (insert k (topRecent cap S)).card) :
    insert k (topRecent cap S) = topRecent cap (insert k S) := by
  have hAS : topRecent cap S ⊆ S := Finset.filter_subset _ _
  have hcardA : (topRecent cap S).card = min cap S.card := card_topRecent cap S
  by_cases hkS : k ∈ S
  · have hS'P : insert k S = S := Finset.insert_eq_self.mpr hkS
    by_cases hkA : k ∈ topRecent cap S
    · rw [Finset.insert_eq_self.mpr hkA, hS'P]
    · exfalso
      have hkcap : cap ≤ aboveCount S k := by
        by_contra hlt
        push_neg at hlt
        exact hkA (mem_topRecent.mpr ⟨hkS, hlt⟩)
      have h1 : aboveCount S k < S.card := aboveCount_lt_card hkS
      have h3 : (insert k (topRecent cap S)).card =
          (topRecent cap S).card + 1 := Finset.card_insert_of_not_mem hkA
      have h4 : min cap S.card = cap := min_eq_left (by omega)
      omega
  · have hkA : k ∉ topRecent cap S := fun h => hkS (hAS h)
    have h3 : (insert k (topRecent cap S)).card =
        (topRecent cap S).card + 1 := Finset.card_insert_of_not_mem hkA
    have hcardR : (topRecent cap (insert k S)).card =
        min cap (insert k S).card := card_topRecent cap _
    have hS'card : (insert k S).card = S.card + 1 :=
      Finset.card_insert_of_not_mem hkS
    have hSlt : S.card < cap := by
      by_contra hge
      push_neg at hge
      have h4 : min cap S.card = cap := min_eq_left hge
      omega
    have hminS : min cap S.card = S.card := min_eq_right (le_of_lt hSlt)
    have hminS' : min cap (insert k S).card = S.card + 1 := by
      rw [hS'card]
      exact min_eq_right (by omega)
    refine (Finset.eq_of_subset_of_card_le (topRecent_insert_subset cap k S)
      ?_).symm
    omega

theorem evictInsert_topRecent (cap k : ℕ) (S : Finset ℕ) :
    evictInsert cap k (topRecent cap S) = topRecent cap (insert k S) := by
  by_cases h : cap < (insert k (topRecent cap S)).card
  · rw [evictInsert_of_lt h]
    exact topRecent_insert_evict cap k S h
  · rw [evictInsert_of_le h]
    exact topRecent_insert_keep cap k S h

theorem keyset_collect {M : Type} (now : ℕ) (v : M) (s : List (ℕ × M))
    (h : (s.map Prod.fst).Nodup) :
    keyset (collectPerformanceMetrics now v s) =
      evictInsert 1000 now (keyset s) ∧
    ((collectPerformanceMetrics now v s).map Prod.fst).Nodup := by
  have hn' : ((mapSet now v s).map Prod.fst).Nodup := nodup_keys_mapSet now v s h
  have hks : keyset (mapSet now v s) = insert now (keyset s) :=
    keyset_mapSet now v s
  have hlen : (mapSet now v s).length = (keyset (mapSet now v s)).card :=
    length_keyset _ hn'
  by_cases hc : 1000 < (mapSet now v s).length
  · have hcF : 1000 < (insert now (keyset s)).card := by
      rw [← hks, ← hlen]
      exact hc
    have hnil : (mapSet now v s).map Prod.fst ≠ [] := by
      intro h0
      have h1 : (mapSet now v s).length = 0 := by
        simpa using congrArg List.length h0
      omega
    have hneT : ((mapSet now v s).map Prod.fst).toFinset.Nonempty :=
      ⟨listMin ((mapSet now v s).map Prod.fst),
        List.mem_toFinset.mpr (listMin_spec _ hnil).1⟩
    constructor
    · show keyset (if 1000 < (mapSet now v s).length then _ else _) = _
      rw [if_pos hc, evictInsert_of_lt hcF, keyset_mapDelete,
        listMin_eq_min' _ hnil hneT]
      have hmin : ((mapSet now v s).map Prod.fst).toFinset.min' hneT =
          (insert now (keyset s)).min'
            (Finset.insert_nonempty now (keyset s)) := by
        have hkseq : ((mapSet now v s).map Prod.fst).toFinset =
            insert now (keyset s) := hks
        exact le_antisymm
          (Finset.min'_le _ _ (by
            rw [hkseq]
            exact Finset.min'_mem _ _))
          (Finset.min'_le _ _ (by
            rw [← hkseq]
            exact Finset.min'_mem _ _))
      rw [hmin, hks]
    · show ((if 1000 < (mapSet now v s).length then _ else _
          : List (ℕ × M)).map Prod.fst).Nodup
      rw [if_pos hc]
      exact nodup_keys_mapDelete _ _ hn'
  · have hcF : ¬1000 < (insert now (keyset s)).card := by
      rw [← hks, ← hlen]
      exact hc
    constructor
    · show keyset (if 1000 < (mapSet now v s).length then _ else _) = _
      rw [if_neg hc, evictInsert_of_le hcF]
      exact hks.trans rfl
    · show ((if 1000 < (mapSet now v s).length then _ else _
          : List (ℕ × M)).map Prod.fst).Nodup
      rw [if_neg hc]
      exact hn'

theorem foldl_insert_keys {M : Type} (calls : List (ℕ × M)) (K : Finset ℕ) :
    calls.foldl (fun K c => insert c.1 K) K =
      (calls.map Prod.fst).toFinset ∪ K := by
  induction calls generalizing K with
  | nil => simp
  | cons c rest ih =>
    simp only [List.foldl_cons, List.map_cons, List.toFinset_cons, ih]
    ext x
    simp only [Finset.mem_union, Finset.mem_insert, List.mem_toFinset]
    tauto

theorem runMetricsFrom {M : Type} (calls : List (ℕ × M)) :
    ∀ (s : List (ℕ × M)) (K : Finset ℕ),
      (s.map Prod.fst).Nodup → keyset s = topRecent 1000 K →
      ((calls.foldl (fun s c => collectPerformanceMetrics c.1 c.2 s) s).map
        Prod.fst).Nodup ∧
      keyset (calls.foldl (fun s c => collectPerformanceMetrics c.1 c.2 s) s) =
        topRecent 1000 (calls.foldl (fun K c => insert c.1 K) K) := by
  induction calls with
  | nil =>
    intro s K hn hk
    exact ⟨hn, hk⟩
  | cons c rest ih =>
    intro s K hn hk
    obtain ⟨hkc, hnc⟩ := keyset_collect c.1 c.2 s hn
    have hstep : keyset (collectPerformanceMetrics c.1 c.2 s) =
        topRecent 1000 (insert c.1 K) := by
      rw [hkc, hk, evictInsert_topRecent 1000 c.1 K]
    exact ih _ _ hnc hstep

/-- C2: for every sequence of metric-recording calls, the store holds at
most 1000 entries after each call; the retained keys are exactly the
most-recent ones — a key is retained iff fewer than 1000 recorded distinct
keys are larger; and whenever an insertion overflows the capacity, the
evicted entry is precisely the one with the smallest (oldest) timestamp
key. -/
theorem metrics_store_capacity_and_retention (M : Type) :
    (∀ calls : List (ℕ × M), (runMetrics calls).length ≤ 1000) ∧
    (∀ (calls : List (ℕ × M)) (k : ℕ),
      k ∈ keyset (runMetrics calls) ↔
        k ∈ seenKeys calls ∧ aboveCount (seenKeys calls) k < 1000) ∧
    (∀ (s : List (ℕ × M)) (now : ℕ) (v : M),
      (s.map Prod.fst).Nodup → 1000 < (mapSet now v s).length →
      keyset (collectPerformanceMetrics now v s) =
        (insert now (keyset s)).erase
          ((insert now (keyset s)).min'
            (Finset.insert_nonempty now (keyset s)))) := by
  have hbase : keyset ([] : List (ℕ × M)) = topRecent 1000 (∅ : Finset ℕ) := by
    simp [keyset, topRecent]
  have hrun : ∀ calls : List (ℕ × M),
      ((runMetrics calls).map Prod.fst).Nodup ∧
      keyset (runMetrics calls) = topRecent 1000 (seenKeys calls) := by
    intro calls
    obtain ⟨hn, hk⟩ := runMetricsFrom calls [] ∅ (by simp) hbase
    refine ⟨hn, ?_⟩
    rw [runMetrics, hk, foldl_insert_keys]
    simp [seenKeys]
  refine ⟨fun calls => ?_, fun calls k => ?_, fun s now v hn hlen => ?_⟩
  · obtain ⟨hn, hk⟩ := hrun calls
    rw [length_keyset _ hn, hk, card_topRecent]
    exact min_le_left _ _
  · obtain ⟨hn, hk⟩ := hrun calls
    rw [hk, mem_topRecent]
  · obtain ⟨hkc, _⟩ := keyset_collect now v s hn
    have hcF : 1000 < (insert now (keyset s)).card := by
      rw [← keyset_mapSet now v s,
        ← length_keyset _ (nodup_keys_mapSet now v s hn)]
      exact hlen
    rw [hkc, evictInsert_of_lt hcF]

/-- C2 witness: inserting key 2000 into the already-full 1001-entry store
evicts exactly the minimal retained key. -/
theorem metrics_store_capacity_and_retention_witness :
    keyset (collectPerformanceMetrics 2000 () bigStore) =
      (insert 2000 (keyset bigStore)).erase
        ((insert 2000 (keyset bigStore)).min'
          (Finset.insert_nonempty 2000 (keyset bigStore))) :=
  (metrics_store_capacity_and_retention Unit).2.2 bigStore 2000 ()
    (by
      have h1 : bigStore.map Prod.fst = List.range 1001 := by
        simp [bigStore, Function.comp_def]
      rw [h1]
      exact List.nodup_range 1001)
    (by
      have h2 := length_le_length_mapSet 2000 () bigStore
      have h3 : bigStore.length = 1001 := by simp [bigStore]
      omega)

end VaasMonitoring
